import Mathlib

/-!
Verification development for the `daqrunlogger` repository.

The definitions below are a shallow embedding of the Python sources:

* `RunInfo`                — `daqrunlogger/daqrunlogger.py`, dataclass `RunInfo`
* `dequeAppend`            — `collections.deque(maxlen=1000).append`
* `ECLState`, `filter_run`, `log_run`, `post_run`, `rate_limit`
                           — `daqrunlogger/ecldaqrunlogger.py`, class `ECLDAQRunLogger`
* `worker_run`             — `daqrunlogger/daqloggerworker.py`, `DAQLoggerWorker.run`
* `SheetsState`, `sheets_run_row_map`, `sheets_log_run`
                           — `daqrunlogger/googlesheetsdaqrunlogger.py`

Timestamps (`datetime` values) are modelled as integers (epoch seconds);
`strftime` is modelled by an injective rendering to `String`.  Python
exceptions are modelled by `Option`/error components: a raised exception
aborts the current call, leaving previously executed mutations in place, and
kills the worker thread (no further snapshots processed).
-/

/-- One observation of a run, mirroring the `RunInfo` dataclass
(`daqrunlogger.py`, field order and defaults preserved). -/
structure RunInfo where
  run_number : Nat
  start_time : Int
  configuration : String
  metadata : String
  components : List String := []
  end_time : Option Int := none
  version : Option String := none
  comments : Option String := none
  bad_end : Bool := false
  dev_run : Bool := false
deriving DecidableEq, Repr

/-- `collections.deque(maxlen=cap).append x`: append on the right, dropping
the oldest (leftmost) entries once the capacity is exceeded. -/
def dequeAppend (cap : Nat) (q : List Nat) (x : Nat) : List Nat :=
  let q' := q ++ [x]
  if cap < q'.length then q'.drop (q'.length - cap) else q'

/-- Models `datetime.strftime('%Y-%m-%d %H:%M:%S')`: an injective rendering
of the timestamp. -/
def strfTime (t : Int) : String := toString t

/-- The ECL form used for a post (`Run Start` / `Run End`). -/
inductive ECLForm where
  | runStart
  | runEnd
deriving DecidableEq, Repr

/-- One entry posted to the ECL: the form, the run it is about, and the
form fields set by `_post_run`. -/
structure ECLPost where
  form : ECLForm
  run_number : Nat
  fields : List (String × String)
deriving DecidableEq, Repr

/-- The exception raised inside `_post_run` when `info.end_time` is `None`
and an end-of-run entry is requested: `info.end_time.strftime(...)` fails
with `AttributeError` (`'NoneType' object has no attribute 'strftime'`). -/
inductive ECLError where
  | attributeError
deriving DecidableEq, Repr

/-- The start-of-run entry built by `_post_run` for `end_of_run=False`
(ecldaqrunlogger.py lines 109-116). -/
def start_post (info : RunInfo) : ECLPost :=
  { form := .runStart
    run_number := info.run_number
    fields := [("number", toString info.run_number),
               ("start_time", strfTime info.start_time),
               ("configuration", info.configuration),
               ("included_components", String.intercalate "\n" info.components),
               ("metadata", info.metadata)] }

/-- The end-of-run entry built by `_post_run` for `end_of_run=True` when
`info.end_time = some te` (ecldaqrunlogger.py lines 106-121). -/
def end_post (info : RunInfo) (te : Int) : ECLPost :=
  { form := .runEnd
    run_number := info.run_number
    fields := [("number", toString info.run_number),
               ("end_time", strfTime te),
               ("crashed", if info.bad_end then "Yes" else "No"),
               ("duration", toString (te - info.start_time))] }

/-- `ECLDAQRunLogger._post_run` (ecldaqrunlogger.py lines 87-127): build the
entry for the given run.  For an end-of-run entry the end time is formatted
with `info.end_time.strftime`, which raises when `end_time` is `None`.
The ECL search for a related start entry (read-only) is elided. -/
def post_run (info : RunInfo) (end_of_run : Bool) : Except ECLError ECLPost :=
  if end_of_run then
    match info.end_time with
    | none => .error .attributeError
    | some te => .ok (end_post info te)
  else
    .ok (start_post info)

/-- Mutable state of an `ECLDAQRunLogger` instance (`__init__`). -/
structure ECLState where
  min_run : Nat
  start_time_utc : Int
  current_run : Option RunInfo := none
  run_cache : List Nat := []
  last_posted_time : Int := 0
deriving DecidableEq, Repr

/-- `ECLDAQRunLogger.filter_run` (lines 130-145). -/
def filter_run (s : ECLState) (info : RunInfo) : Bool :=
  if info.run_number < s.min_run then false
  else if info.dev_run then false
  else if s.run_cache.contains info.run_number then false
  else true

/-- The rate-limit step at the head of `log_run` (lines 149-154).
Given the stored `_last_posted_time` and the entry time `now`, returns
`(proceed, recorded)` where `proceed` is the time at which execution
continues past the `time.sleep` (blocking modelled as time arithmetic,
the sleep taken as exact) and `recorded` is the value assigned to
`_last_posted_time` — the source assigns the entry time `now`, read
before the sleep. -/
def rate_limit (last_posted_time now : Int) : Int × Int :=
  let dt := now - last_posted_time
  (if dt < 30 then now + (30 - dt) else now, now)

/-- Result of one `log_run` call: the object state when the call finishes
(normally or by raising), the ECL posts actually made, and the exception
propagated out of the call, if any. -/
structure LogResult where
  state : ECLState
  posts : List ECLPost
  error : Option ECLError
deriving DecidableEq, Repr

/-- Lines 201-218 of `log_run`: adopt `info` as the new current run.
If it already has an end time, cache it and never post about it; else
post a start-of-run entry unless the run began before this logger did.
`posts` carries the posts already made earlier in the call. -/
def adopt_new_run (s : ECLState) (info : RunInfo) (posts : List ECLPost) : LogResult :=
  if info.end_time.isSome then
    { state := { s with current_run := some info
                        run_cache := dequeAppend 1000 s.run_cache info.run_number }
      posts := posts, error := none }
  else if info.start_time < s.start_time_utc then
    { state := { s with current_run := some info }, posts := posts, error := none }
  else
    match post_run info false with
    | .ok p =>
      { state := { s with current_run := some info }, posts := posts ++ [p], error := none }
    | .error e =>
      { state := { s with current_run := some info }, posts := posts, error := some e }

/-- The branching body of `log_run` after the rate-limit step
(lines 156-218), acting on the state with `_last_posted_time` already
updated. -/
def log_run_body (s : ECLState) (info : RunInfo) : LogResult :=
  match s.current_run with
  | none =>
    -- first time start up, treat this run as the first (lines 167-170)
    { state := { s with current_run := some info }, posts := [], error := none }
  | some cur =>
    if info.run_number < cur.run_number then
      -- definitely not the latest run, cache it (lines 172-175)
      { state := { s with run_cache := dequeAppend 1000 s.run_cache info.run_number }
        posts := [], error := none }
    else if info.run_number = cur.run_number then
      -- our current run (lines 177-188)
      if info.end_time.isSome && cur.end_time.isNone then
        match post_run info true with
        | .ok p =>
          { state := { s with current_run := some info
                              run_cache := dequeAppend 1000 s.run_cache info.run_number }
            posts := [p], error := none }
        | .error e => { state := s, posts := [], error := some e }
      else { state := s, posts := [], error := none }
    else
      -- presumably a newer run (lines 190-218)
      match cur.end_time with
      | none =>
        -- current run never got an end time: post an end-of-run entry for
        -- it first (lines 191-199); the copy still has `end_time = None`,
        -- so `_post_run` raises before posting or caching anything
        match post_run cur true with
        | .ok p =>
          adopt_new_run { s with run_cache := dequeAppend 1000 s.run_cache cur.run_number }
            info [p]
        | .error e => { state := s, posts := [], error := some e }
      | some _ => adopt_new_run s info []

/-- `ECLDAQRunLogger.log_run` (lines 148-218): rate limit (recording the
entry time `now`), then the state-machine body. -/
def log_run (s : ECLState) (now : Int) (info : RunInfo) : LogResult :=
  log_run_body { s with last_posted_time := (rate_limit s.last_posted_time now).2 } info

/-- `DAQLoggerWorker.run` (daqloggerworker.py lines 30-42) specialised to an
`ECLDAQRunLogger`: for each queued snapshot, call `filter_run` and, on
acceptance, `log_run`.  An exception propagating out of `log_run` is
uncaught and kills the worker thread, so no later snapshot is processed.
Each input carries the wall-clock time at which `log_run` reads
`datetime.now()`. -/
def worker_run : ECLState → List (Int × RunInfo) → ECLState × List ECLPost
  | s, [] => (s, [])
  | s, (now, info) :: rest =>
    if filter_run s info then
      match (log_run s now info).error with
      | some _ => ((log_run s now info).state, (log_run s now info).posts)
      | none =>
        ((worker_run (log_run s now info).state rest).1,
         (log_run s now info).posts ++ (worker_run (log_run s now info).state rest).2)
    else worker_run s rest

/-- The posts emitted while processing a queue of snapshots. -/
def trace (s : ECLState) (l : List (Int × RunInfo)) : List ECLPost :=
  (worker_run s l).2

/-- Is `p` a start-of-run post for run `n`? -/
def isStartOf (n : Nat) (p : ECLPost) : Bool :=
  p.form == ECLForm.runStart && p.run_number == n

/-- Is `p` an end-of-run post for run `n`? -/
def isEndOf (n : Nat) (p : ECLPost) : Bool :=
  p.form == ECLForm.runEnd && p.run_number == n

/-! ### Google-Sheets sink (`googlesheetsdaqrunlogger.py`) -/

/-- Mutable state of a `GoogleSheetsDAQRunLogger` instance (`__init__`):
the completed-run cache (`deque(maxlen=1000)`) and `_last_post`. -/
structure SheetsState where
  run_cache : List Nat := []
  last_post : Int := 0
deriving DecidableEq, Repr

/-- The backend responses observed during one `log_run` call.
`get_result` is the spreadsheet read (`values().get`): `none` models a
`TimeoutError`/`HttpError`; a returned row's first cell is `none` when it
fails `int(...)` parsing (`ValueError`/`IndexError`).  `write_result` is the
`update`/`append` call: `none` models a `TimeoutError`/`HttpError`, `some k`
a response with `k` updated cells. -/
structure SheetsBackend where
  get_result : Option (List (Option Int))
  write_result : Option Nat
deriving DecidableEq, Repr

/-- `GoogleSheetsDAQRunLogger.run_row_map` (lines 51-74): read column A and
map each parseable run number to its (1-based, header-adjusted) row; `none`
on a backend error.  Duplicates keep the last row (Python dict overwrite),
captured by `sheets_dict_get` below looking up the last binding. -/
def sheets_run_row_map (header : Nat) (b : SheetsBackend) : Option (List (Int × Nat)) :=
  match b.get_result with
  | none => none
  | some rows =>
    some (rows.enum.filterMap fun ic => ic.2.map fun v => (v, header + ic.1 + 1))

/-- Lookup in the association list built by `sheets_run_row_map`, with
Python-dict semantics: the last binding for a key wins. -/
def sheets_dict_get (m : List (Int × Nat)) (k : Int) : Option Nat :=
  ((m.filter fun e => e.1 == k).getLast?).map fun e => e.2

/-- One row written to the spreadsheet: whether it was an update-in-place
(the run already had a row) or an append, and the cell values. -/
structure SheetsWrite where
  is_update : Bool
  values : List String
deriving DecidableEq, Repr

/-- `GoogleSheetsDAQRunLogger.log_run` (lines 89-170).  The rate-limit sleep
(lines 92-95) only delays.  On a backend error while reading the run/row map
or while writing, the call returns with the state unchanged; on success the
run is cached only if its `end_time` is set, and `_last_post` is set to the
entry time `now`.  `now_utc` is the `datetime.now(timezone.utc)` read used
for the running-time display. -/
def sheets_log_run (header : Nat) (s : SheetsState) (b : SheetsBackend)
    (now now_utc : Int) (info : RunInfo) : SheetsState × Option SheetsWrite :=
  let start_time_str := strfTime info.start_time
  match sheets_run_row_map header b with
  | none => (s, none)
  | some runs =>
    let end_time_str :=
      match info.end_time with
      | some te => strfTime te
      | none =>
        if runs.any fun e => (info.run_number : Int) < e.1 then "unknown"
        else
          -- zero padding of the minute/second display is elided
          let runtime := now_utc - info.start_time
          "Running (" ++ toString (Int.fdiv runtime 60) ++ ":" ++
            toString (Int.fmod runtime 60) ++ ")"
    let values := [toString info.run_number, start_time_str, end_time_str,
                   info.configuration, String.intercalate ", " info.components,
                   if info.bad_end then "Yes" else "No"]
    let row := (sheets_dict_get runs (info.run_number : Int)).map fun r => r - 1
    match b.write_result with
    | none => (s, none)
    | some _ =>
      ({ run_cache := if info.end_time.isSome
                      then dequeAppend 1000 s.run_cache info.run_number
                      else s.run_cache
         last_post := now }, some { is_update := row.isSome, values := values })

/-! ### Concrete inputs used by witnesses and counterexamples -/

/-- A snapshot with the given run number, start time and end time; the
remaining fields keep their dataclass defaults. -/
def demo_run (n : Nat) (st : Int) (et : Option Int) : RunInfo :=
  { run_number := n, start_time := st, configuration := "", metadata := "", end_time := et }

/-- A freshly constructed `ECLDAQRunLogger` (no current run, empty cache)
with `min_run = 0` and startup reference time `0`. -/
def fresh_logger : ECLState := { min_run := 0, start_time_utc := 0 }

/-- A tracker currently holding the never-ended run 17215. -/
def tracking_17215 : ECLState :=
  { min_run := 0, start_time_utc := 0, current_run := some (demo_run 17215 5 none) }

/-- A tracker currently holding the never-ended run 100. -/
def tracking_100 : ECLState :=
  { min_run := 0, start_time_utc := 0, current_run := some (demo_run 100 5 none) }

/-- A tracker currently holding the already-ended run 1. -/
def tracking_1_ended : ECLState :=
  { min_run := 0, start_time_utc := 0, current_run := some (demo_run 1 1 (some 2)) }

/-- A queue producing both a start-of-run and an end-of-run post for run 2:
adopt the already-ended run 1, then start run 2, then end run 2. -/
def demo_queue : List (Int × RunInfo) :=
  [(0, demo_run 1 1 (some 2)), (1, demo_run 2 3 none), (2, demo_run 2 3 (some 9))]

/-- A development-area snapshot (`dev_run = true`). -/
def dev_snapshot : RunInfo :=
  { run_number := 3, start_time := 1, configuration := "", metadata := "", dev_run := true }

@[simp] theorem start_post_form (info : RunInfo) : (start_post info).form = .runStart := rfl

@[simp] theorem start_post_number (info : RunInfo) :
    (start_post info).run_number = info.run_number := rfl

@[simp] theorem end_post_form (info : RunInfo) (te : Int) :
    (end_post info te).form = .runEnd := rfl

@[simp] theorem end_post_number (info : RunInfo) (te : Int) :
    (end_post info te).run_number = info.run_number := rfl

/-! ### Case analysis of one `log_run` call

`log_run_cases` characterises every reachable outcome of a single call:
first adoption, stale/duplicate no-ops, the raising synthesized-end branch,
the end-of-run post, and the two newer-run adoption outcomes. -/

theorem log_run_cases (s : ECLState) (now : Int) (info : RunInfo) (r : LogResult)
    (hr : log_run s now info = r) :
    (s.current_run = none ∧ r.posts = [] ∧ r.error = none ∧
      r.state.current_run = some info) ∨
    (∃ cur, s.current_run = some cur ∧ r.posts = [] ∧ r.error = none ∧
      r.state.current_run = some cur) ∨
    (∃ cur, s.current_run = some cur ∧ r.posts = [] ∧ (∃ e, r.error = some e) ∧
      r.state.current_run = some cur) ∨
    (∃ cur, s.current_run = some cur ∧ info.run_number = cur.run_number ∧
      cur.end_time = none ∧ info.end_time.isSome = true ∧ r.error = none ∧
      r.state.current_run = some info ∧
      ∃ p, r.posts = [p] ∧ p.form = ECLForm.runEnd ∧ p.run_number = info.run_number) ∨
    (∃ cur, s.current_run = some cur ∧ cur.run_number < info.run_number ∧
      r.posts = [] ∧ r.error = none ∧ r.state.current_run = some info) ∨
    (∃ cur, s.current_run = some cur ∧ cur.run_number < info.run_number ∧
      info.end_time = none ∧ r.error = none ∧ r.state.current_run = some info ∧
      ∃ p, r.posts = [p] ∧ p.form = ECLForm.runStart ∧ p.run_number = info.run_number) := by
  subst hr
  cases hc : s.current_run with
  | none =>
    exact Or.inl ⟨rfl, by simp [log_run, log_run_body, hc]⟩
  | some cur =>
    by_cases h1 : info.run_number < cur.run_number
    · refine Or.inr (Or.inl ⟨cur, rfl, ?_⟩)
      simp [log_run, log_run_body, hc, h1]
    · by_cases h2 : info.run_number = cur.run_number
      · by_cases h3 : (info.end_time.isSome && cur.end_time.isNone) = true
        · obtain ⟨he, hn⟩ := Bool.and_eq_true_iff.mp h3
          obtain ⟨te, hte⟩ := Option.isSome_iff_exists.mp he
          have hn' : cur.end_time = none := Option.isNone_iff_eq_none.mp hn
          refine Or.inr (Or.inr (Or.inr (Or.inl
            ⟨cur, rfl, h2, hn', he, ?_, ?_, end_post info te, ?_, rfl, rfl⟩)))
          · simp [log_run, log_run_body, hc, h1, h2, h3, post_run, hte, hn']
          · simp [log_run, log_run_body, hc, h1, h2, h3, post_run, hte, hn']
          · simp [log_run, log_run_body, hc, h1, h2, h3, post_run, hte, hn']
        · refine Or.inr (Or.inl ⟨cur, rfl, ?_⟩)
          simp [log_run, log_run_body, hc, h1, h2, h3]
      · have hgt : cur.run_number < info.run_number :=
          Nat.lt_of_le_of_ne (Nat.le_of_not_lt h1) (fun h => h2 h.symm)
        cases hce : cur.end_time with
        | none =>
          refine Or.inr (Or.inr (Or.inl ⟨cur, rfl, ?_, ⟨.attributeError, ?_⟩, ?_⟩)) <;>
            simp [log_run, log_run_body, hc, h1, h2, hce, post_run]
        | some tc =>
          by_cases h4 : info.end_time.isSome = true
          · refine Or.inr (Or.inr (Or.inr (Or.inr (Or.inl ⟨cur, rfl, hgt, ?_⟩))))
            simp [log_run, log_run_body, adopt_new_run, hc, h1, h2, hce, h4]
          · have hen : info.end_time = none := Option.not_isSome_iff_eq_none.mp h4
            by_cases h5 : info.start_time < s.start_time_utc
            · refine Or.inr (Or.inr (Or.inr (Or.inr (Or.inl ⟨cur, rfl, hgt, ?_⟩))))
              simp [log_run, log_run_body, adopt_new_run, hc, h1, h2, hce, h4, h5]
            · refine Or.inr (Or.inr (Or.inr (Or.inr (Or.inr
                ⟨cur, rfl, hgt, hen, ?_, ?_, start_post info, ?_, rfl, rfl⟩))))
              · simp [log_run, log_run_body, adopt_new_run, hc, h1, h2, hce, h4, h5, post_run]
              · simp [log_run, log_run_body, adopt_new_run, hc, h1, h2, hce, h4, h5, post_run]
              · simp [log_run, log_run_body, adopt_new_run, hc, h1, h2, hce, h4, h5, post_run]

/-! ### Worker-loop unfolding lemmas -/

theorem worker_run_cons_skip (s : ECLState) (now : Int) (info : RunInfo)
    (rest : List (Int × RunInfo)) (hf : filter_run s info = false) :
    worker_run s ((now, info) :: rest) = worker_run s rest := by
  simp [worker_run, hf]

theorem worker_run_cons_err (s : ECLState) (now : Int) (info : RunInfo)
    (rest : List (Int × RunInfo)) (hf : filter_run s info = true) (e : ECLError)
    (he : (log_run s now info).error = some e) :
    worker_run s ((now, info) :: rest) =
      ((log_run s now info).state, (log_run s now info).posts) := by
  simp [worker_run, hf, he]

theorem worker_run_cons_ok (s : ECLState) (now : Int) (info : RunInfo)
    (rest : List (Int × RunInfo)) (hf : filter_run s info = true)
    (he : (log_run s now info).error = none) :
    worker_run s ((now, info) :: rest) =
      ((worker_run (log_run s now info).state rest).1,
       (log_run s now info).posts ++ (worker_run (log_run s now info).state rest).2) := by
  simp [worker_run, hf, he]

theorem trace_nil (s : ECLState) : trace s [] = [] := rfl

theorem trace_cons_skip (s : ECLState) (now : Int) (info : RunInfo)
    (rest : List (Int × RunInfo)) (hf : filter_run s info = false) :
    trace s ((now, info) :: rest) = trace s rest := by
  simp [trace, worker_run_cons_skip _ _ _ _ hf]

theorem trace_cons_err (s : ECLState) (now : Int) (info : RunInfo)
    (rest : List (Int × RunInfo)) (hf : filter_run s info = true) (e : ECLError)
    (he : (log_run s now info).error = some e) :
    trace s ((now, info) :: rest) = (log_run s now info).posts := by
  simp [trace, worker_run_cons_err _ _ _ _ hf e he]

theorem trace_cons_ok (s : ECLState) (now : Int) (info : RunInfo)
    (rest : List (Int × RunInfo)) (hf : filter_run s info = true)
    (he : (log_run s now info).error = none) :
    trace s ((now, info) :: rest) =
      (log_run s now info).posts ++ trace (log_run s now info).state rest := by
  simp [trace, worker_run_cons_ok _ _ _ _ hf he]

theorem isStartOf_iff (n : Nat) (p : ECLPost) :
    isStartOf n p = true ↔ p.form = ECLForm.runStart ∧ p.run_number = n := by
  simp [isStartOf, Bool.and_eq_true]

theorem isEndOf_iff (n : Nat) (p : ECLPost) :
    isEndOf n p = true ↔ p.form = ECLForm.runEnd ∧ p.run_number = n := by
  simp [isEndOf, Bool.and_eq_true]

/-! ### Trace invariants

The key observation: the tracked current run's number only ever grows, so a
start-of-run post for run `n` can only appear in the future trace while the
current run number is strictly below `n`, and an end-of-run post only while
the current run is at most `n` (and equal only if it has no end time yet). -/

/-- If a start-of-run post for run `n` appears anywhere in the trace from
state `s`, the current run of `s` (if any) has a number strictly below `n`. -/
theorem start_in_trace : ∀ (l : List (Int × RunInfo)) (s : ECLState) (n : Nat),
    (∃ p ∈ trace s l, isStartOf n p = true) →
    ∀ c, s.current_run = some c → c.run_number < n := by
  intro l
  induction l with
  | nil =>
    intro s n h c _
    obtain ⟨p, hp, _⟩ := h
    simp [trace_nil] at hp
  | cons x rest ih =>
    obtain ⟨now, info⟩ := x
    intro s n h c hc
    by_cases hf : filter_run s info
    · rcases herr : (log_run s now info).error with _ | e
      · rw [trace_cons_ok _ _ _ _ hf herr] at h
        obtain ⟨p, hp, hps⟩ := h
        rcases List.mem_append.mp hp with hp | hp
        · rcases log_run_cases s now info _ rfl with
            ⟨_, hposts, _, _⟩ | ⟨cur, hcur, hposts, _, _⟩ |
            ⟨cur, hcur, hposts, _, _⟩ |
            ⟨cur, hcur, hnum, hce, hie, _, _, q, hposts, hform, hqn⟩ |
            ⟨cur, hcur, hlt, hposts, _, _⟩ |
            ⟨cur, hcur, hlt, hie, _, _, q, hposts, hform, hqn⟩
          · rw [hposts] at hp; simp at hp
          · rw [hposts] at hp; simp at hp
          · rw [hposts] at hp; simp at hp
          · rw [hposts] at hp
            rw [List.mem_singleton.mp hp] at hps
            rw [isStartOf_iff] at hps
            rw [hform] at hps
            exact absurd hps.1 (by simp)
          · rw [hposts] at hp; simp at hp
          · rw [hposts] at hp
            rw [List.mem_singleton.mp hp] at hps
            rw [isStartOf_iff] at hps
            have hn : n = info.run_number := by rw [← hps.2, hqn]
            have : c = cur := by rw [hcur] at hc; exact Option.some_injective _ hc.symm
            rw [this, hn]
            exact hlt
        · have hrec := ih (log_run s now info).state n ⟨p, hp, hps⟩
          rcases log_run_cases s now info _ rfl with
            ⟨hnone, _, _, _⟩ | ⟨cur, hcur, _, _, hcur'⟩ |
            ⟨cur, hcur, _, ⟨e', herr'⟩, _⟩ |
            ⟨cur, hcur, hnum, hce, hie, _, hcur', _, _, _, _⟩ |
            ⟨cur, hcur, hlt, _, _, hcur'⟩ |
            ⟨cur, hcur, hlt, hie, _, hcur', _, _, _, _⟩
          · rw [hnone] at hc; exact absurd hc (by simp)
          · have hcc : c = cur := by rw [hcur] at hc; exact Option.some_injective _ hc.symm
            rw [hcc]; exact hrec cur hcur'
          · rw [herr'] at herr; exact absurd herr (by simp)
          · have hcc : c = cur := by rw [hcur] at hc; exact Option.some_injective _ hc.symm
            have := hrec info hcur'
            rw [hcc, ← hnum]; exact this
          · have hcc : c = cur := by rw [hcur] at hc; exact Option.some_injective _ hc.symm
            have := hrec info hcur'
            rw [hcc]; exact Nat.lt_trans hlt this
          · have hcc : c = cur := by rw [hcur] at hc; exact Option.some_injective _ hc.symm
            have := hrec info hcur'
            rw [hcc]; exact Nat.lt_trans hlt this
      · rw [trace_cons_err _ _ _ _ hf e herr] at h
        obtain ⟨p, hp, hps⟩ := h
        rcases log_run_cases s now info _ rfl with
          ⟨_, _, herr', _⟩ | ⟨cur, _, _, herr', _⟩ |
          ⟨cur, _, hposts, _, _⟩ |
          ⟨cur, _, _, _, _, herr', _, _, _, _, _⟩ |
          ⟨cur, _, _, _, herr', _⟩ |
          ⟨cur, _, _, _, herr', _, _, _, _, _⟩
        · rw [herr'] at herr; exact absurd herr (by simp)
        · rw [herr'] at herr; exact absurd herr (by simp)
        · rw [hposts] at hp; simp at hp
        · rw [herr'] at herr; exact absurd herr (by simp)
        · rw [herr'] at herr; exact absurd herr (by simp)
        · rw [herr'] at herr; exact absurd herr (by simp)
    · have hf' : filter_run s info = false := Bool.not_eq_true _ ▸ eq_false_of_ne_true hf
      rw [trace_cons_skip _ _ _ _ hf'] at h
      exact ih s n h c hc

/-- If an end-of-run post for run `n` appears anywhere in the trace from
state `s`, the current run of `s` (if any) has a number strictly below `n`,
or is run `n` itself still without an end time. -/
theorem end_in_trace : ∀ (l : List (Int × RunInfo)) (s : ECLState) (n : Nat),
    (∃ p ∈ trace s l, isEndOf n p = true) →
    ∀ c, s.current_run = some c →
      c.run_number < n ∨ (c.run_number = n ∧ c.end_time = none) := by
  intro l
  induction l with
  | nil =>
    intro s n h c _
    obtain ⟨p, hp, _⟩ := h
    simp [trace_nil] at hp
  | cons x rest ih =>
    obtain ⟨now, info⟩ := x
    intro s n h c hc
    by_cases hf : filter_run s info
    · rcases herr : (log_run s now info).error with _ | e
      · rw [trace_cons_ok _ _ _ _ hf herr] at h
        obtain ⟨p, hp, hps⟩ := h
        rcases List.mem_append.mp hp with hp | hp
        · rcases log_run_cases s now info _ rfl with
            ⟨_, hposts, _, _⟩ | ⟨cur, hcur, hposts, _, _⟩ |
            ⟨cur, hcur, hposts, _, _⟩ |
            ⟨cur, hcur, hnum, hce, hie, _, _, q, hposts, hform, hqn⟩ |
            ⟨cur, hcur, hlt, hposts, _, _⟩ |
            ⟨cur, hcur, hlt, hie, _, _, q, hposts, hform, hqn⟩
          · rw [hposts] at hp; simp at hp
          · rw [hposts] at hp; simp at hp
          · rw [hposts] at hp; simp at hp
          · rw [hposts] at hp
            rw [List.mem_singleton.mp hp] at hps
            rw [isEndOf_iff] at hps
            have hcc : c = cur := by rw [hcur] at hc; exact Option.some_injective _ hc.symm
            have hn : n = cur.run_number := by rw [← hps.2, hqn, hnum]
            exact Or.inr ⟨by rw [hcc, hn], by rw [hcc]; exact hce⟩
          · rw [hposts] at hp; simp at hp
          · rw [hposts] at hp
            rw [List.mem_singleton.mp hp] at hps
            rw [isEndOf_iff] at hps
            rw [hform] at hps
            exact absurd hps.1 (by simp)
        · have hrec := ih (log_run s now info).state n ⟨p, hp, hps⟩
          rcases log_run_cases s now info _ rfl with
            ⟨hnone, _, _, _⟩ | ⟨cur, hcur, _, _, hcur'⟩ |
            ⟨cur, hcur, _, ⟨e', herr'⟩, _⟩ |
            ⟨cur, hcur, hnum, hce, hie, _, hcur', _, _, _, _⟩ |
            ⟨cur, hcur, hlt, _, _, hcur'⟩ |
            ⟨cur, hcur, hlt, hie, _, hcur', _, _, _, _⟩
          · rw [hnone] at hc; exact absurd hc (by simp)
          · have hcc : c = cur := by rw [hcur] at hc; exact Option.some_injective _ hc.symm
            rw [hcc]; exact hrec cur hcur'
          · rw [herr'] at herr; exact absurd herr (by simp)
          · have hcc : c = cur := by rw [hcur] at hc; exact Option.some_injective _ hc.symm
            rcases hrec info hcur' with hlt' | ⟨_, hen⟩
            · exact Or.inl (by rw [hcc, ← hnum]; exact hlt')
            · rw [hen] at hie; exact absurd hie (by simp)
          · have hcc : c = cur := by rw [hcur] at hc; exact Option.some_injective _ hc.symm
            rcases hrec info hcur' with hlt' | ⟨heq, _⟩
            · exact Or.inl (by rw [hcc]; exact Nat.lt_trans hlt hlt')
            · exact Or.inl (by rw [hcc, ← heq]; exact hlt)
          · have hcc : c = cur := by rw [hcur] at hc; exact Option.some_injective _ hc.symm
            rcases hrec info hcur' with hlt' | ⟨heq, _⟩
            · exact Or.inl (by rw [hcc]; exact Nat.lt_trans hlt hlt')
            · exact Or.inl (by rw [hcc, ← heq]; exact hlt)
      · rw [trace_cons_err _ _ _ _ hf e herr] at h
        obtain ⟨p, hp, hps⟩ := h
        rcases log_run_cases s now info _ rfl with
          ⟨_, _, herr', _⟩ | ⟨cur, _, _, herr', _⟩ |
          ⟨cur, _, hposts, _, _⟩ |
          ⟨cur, _, _, _, _, herr', _, _, _, _, _⟩ |
          ⟨cur, _, _, _, herr', _⟩ |
          ⟨cur, _, _, _, herr', _, _, _, _, _⟩
        · rw [herr'] at herr; exact absurd herr (by simp)
        · rw [herr'] at herr; exact absurd herr (by simp)
        · rw [hposts] at hp; simp at hp
        · rw [herr'] at herr; exact absurd herr (by simp)
        · rw [herr'] at herr; exact absurd herr (by simp)
        · rw [herr'] at herr; exact absurd herr (by simp)
    · have hf' : filter_run s info = false := Bool.not_eq_true _ ▸ eq_false_of_ne_true hf
      rw [trace_cons_skip _ _ _ _ hf'] at h
      exact ih s n h c hc

/-- Across any processed queue, at most one start-of-run post is made per
run number. -/
theorem start_count : ∀ (l : List (Int × RunInfo)) (s : ECLState) (n : Nat),
    (trace s l).countP (isStartOf n) ≤ 1 := by
  intro l
  induction l with
  | nil => intro s n; simp [trace_nil]
  | cons x rest ih =>
    obtain ⟨now, info⟩ := x
    intro s n
    by_cases hf : filter_run s info
    · rcases herr : (log_run s now info).error with _ | e
      · rw [trace_cons_ok _ _ _ _ hf herr, List.countP_append]
        rcases log_run_cases s now info _ rfl with
          ⟨_, hposts, _, _⟩ | ⟨cur, hcur, hposts, _, _⟩ |
          ⟨cur, hcur, hposts, _, _⟩ |
          ⟨cur, hcur, hnum, hce, hie, _, _, q, hposts, hform, hqn⟩ |
          ⟨cur, hcur, hlt, hposts, _, _⟩ |
          ⟨cur, hcur, hlt, hie, _, hcur', q, hposts, hform, hqn⟩
        · rw [hposts]; simpa using ih _ n
        · rw [hposts]; simpa using ih _ n
        · rw [hposts]; simpa using ih _ n
        · rw [hposts]
          have hq : isStartOf n q = false := by
            rw [Bool.eq_false_iff]
            intro hcon
            rw [isStartOf_iff, hform] at hcon
            simp at hcon
          simpa [List.countP_cons, hq] using ih _ n
        · rw [hposts]; simpa using ih _ n
        · rw [hposts]
          by_cases hq : isStartOf n q = true
          · have hn : n = info.run_number := by
              rw [isStartOf_iff] at hq
              rw [← hq.2, hqn]
            have hrest : (trace (log_run s now info).state rest).countP (isStartOf n) = 0 := by
              by_contra hne
              have hpos : 0 < (trace (log_run s now info).state rest).countP (isStartOf n) :=
                Nat.pos_of_ne_zero hne
              obtain ⟨p, hp, hps⟩ := List.countP_pos_iff.mp hpos
              have := start_in_trace rest (log_run s now info).state n ⟨p, hp, hps⟩ info hcur'
              rw [hn] at this
              exact absurd this (Nat.lt_irrefl _)
            rw [hrest]
            simp [List.countP_cons, hq]
          · have hq' : isStartOf n q = false := Bool.eq_false_iff.mpr hq
            simpa [List.countP_cons, hq'] using ih _ n
      · rw [trace_cons_err _ _ _ _ hf e herr]
        rcases log_run_cases s now info _ rfl with
          ⟨_, _, herr', _⟩ | ⟨cur, _, _, herr', _⟩ |
          ⟨cur, _, hposts, _, _⟩ |
          ⟨cur, _, _, _, _, herr', _, _, _, _, _⟩ |
          ⟨cur, _, _, _, herr', _⟩ |
          ⟨cur, _, _, _, herr', _, _, _, _, _⟩
        · rw [herr'] at herr; exact absurd herr (by simp)
        · rw [herr'] at herr; exact absurd herr (by simp)
        · rw [hposts]; simp
        · rw [herr'] at herr; exact absurd herr (by simp)
        · rw [herr'] at herr; exact absurd herr (by simp)
        · rw [herr'] at herr; exact absurd herr (by simp)
    · have hf' : filter_run s info = false := Bool.not_eq_true _ ▸ eq_false_of_ne_true hf
      rw [trace_cons_skip _ _ _ _ hf']
      exact ih s n

/-- Across any processed queue, at most one end-of-run post is made per
run number. -/
theorem end_count : ∀ (l : List (Int × RunInfo)) (s : ECLState) (n : Nat),
    (trace s l).countP (isEndOf n) ≤ 1 := by
  intro l
  induction l with
  | nil => intro s n; simp [trace_nil]
  | cons x rest ih =>
    obtain ⟨now, info⟩ := x
    intro s n
    by_cases hf : filter_run s info
    · rcases herr : (log_run s now info).error with _ | e
      · rw [trace_cons_ok _ _ _ _ hf herr, List.countP_append]
        rcases log_run_cases s now info _ rfl with
          ⟨_, hposts, _, _⟩ | ⟨cur, hcur, hposts, _, _⟩ |
          ⟨cur, hcur, hposts, _, _⟩ |
          ⟨cur, hcur, hnum, hce, hie, _, hcur', q, hposts, hform, hqn⟩ |
          ⟨cur, hcur, hlt, hposts, _, _⟩ |
          ⟨cur, hcur, hlt, hie, _, hcur', q, hposts, hform, hqn⟩
        · rw [hposts]; simpa using ih _ n
        · rw [hposts]; simpa using ih _ n
        · rw [hposts]; simpa using ih _ n
        · rw [hposts]
          by_cases hq : isEndOf n q = true
          · have hn : n = info.run_number := by
              rw [isEndOf_iff] at hq
              rw [← hq.2, hqn]
            have hrest : (trace (log_run s now info).state rest).countP (isEndOf n) = 0 := by
              by_contra hne
              have hpos : 0 < (trace (log_run s now info).state rest).countP (isEndOf n) :=
                Nat.pos_of_ne_zero hne
              obtain ⟨p, hp, hps⟩ := List.countP_pos_iff.mp hpos
              rcases end_in_trace rest (log_run s now info).state n ⟨p, hp, hps⟩ info hcur'
                with hlt' | ⟨_, hen⟩
              · rw [hn] at hlt'; exact absurd hlt' (Nat.lt_irrefl _)
              · rw [hen] at hie; exact absurd hie (by simp)
            rw [hrest]
            simp [List.countP_cons, hq]
          · have hq' : isEndOf n q = false := Bool.eq_false_iff.mpr hq
            simpa [List.countP_cons, hq'] using ih _ n
        · rw [hposts]; simpa using ih _ n
        · rw [hposts]
          have hq : isEndOf n q = false := by
            rw [Bool.eq_false_iff]
            intro hcon
            rw [isEndOf_iff, hform] at hcon
            simp at hcon
          simpa [List.countP_cons, hq] using ih _ n
      · rw [trace_cons_err _ _ _ _ hf e herr]
        rcases log_run_cases s now info _ rfl with
          ⟨_, _, herr', _⟩ | ⟨cur, _, _, herr', _⟩ |
          ⟨cur, _, hposts, _, _⟩ |
          ⟨cur, _, _, _, _, herr', _, _, _, _, _⟩ |
          ⟨cur, _, _, _, herr', _⟩ |
          ⟨cur, _, _, _, herr', _, _, _, _, _⟩
        · rw [herr'] at herr; exact absurd herr (by simp)
        · rw [herr'] at herr; exact absurd herr (by simp)
        · rw [hposts]; simp
        · rw [herr'] at herr; exact absurd herr (by simp)
        · rw [herr'] at herr; exact absurd herr (by simp)
        · rw [herr'] at herr; exact absurd herr (by simp)
    · have hf' : filter_run s info = false := Bool.not_eq_true _ ▸ eq_false_of_ne_true hf
      rw [trace_cons_skip _ _ _ _ hf']
      exact ih s n

theorem getElem_mem_take {α : Type} (l : List α) (j : Nat) (hj : j < l.length) :
    l[j] ∈ l.take (j + 1) := by
  have hlen : j < (l.take (j + 1)).length := by
    simp only [List.length_take]
    omega
  have heq : (l.take (j + 1))[j] = l[j] := List.getElem_take l
  rw [← heq]
  exact List.getElem_mem hlen

theorem getElem_mem_drop {α : Type} (l : List α) (k i : Nat) (hi : i < l.length)
    (hk : k ≤ i) : l[i] ∈ l.drop k := by
  have h1 : (l.drop k)[i - k]? = l[k + (i - k)]? := List.getElem?_drop l k (i - k)
  rw [show k + (i - k) = i from by omega] at h1
  rw [List.getElem?_eq_getElem hi] at h1
  exact List.getElem?_mem h1

/-- In the trace from any state, an end-of-run post for run `n` never occurs
at or before a position from which a start-of-run post for `n` still
follows. -/
theorem no_end_before_start : ∀ (l : List (Int × RunInfo)) (s : ECLState) (n k : Nat),
    (∃ p ∈ (trace s l).take k, isEndOf n p = true) →
    (∃ p ∈ (trace s l).drop k, isStartOf n p = true) → False := by
  intro l
  induction l with
  | nil =>
    intro s n k hE _
    obtain ⟨p, hp, _⟩ := hE
    rw [trace_nil] at hp
    simp at hp
  | cons x rest ih =>
    obtain ⟨now, info⟩ := x
    intro s n k hE hS
    by_cases hf : filter_run s info
    · rcases herr : (log_run s now info).error with _ | e
      · rw [trace_cons_ok _ _ _ _ hf herr] at hE hS
        rcases log_run_cases s now info _ rfl with
          ⟨_, hposts, _, _⟩ | ⟨cur, hcur, hposts, _, _⟩ |
          ⟨cur, hcur, hposts, _, _⟩ |
          ⟨cur, hcur, hnum, hce, hie, _, hcur', q, hposts, hform, hqn⟩ |
          ⟨cur, hcur, hlt, hposts, _, _⟩ |
          ⟨cur, hcur, hlt, hie, _, hcur', q, hposts, hform, hqn⟩
        · rw [hposts, List.nil_append] at hE hS; exact ih _ n k hE hS
        · rw [hposts, List.nil_append] at hE hS; exact ih _ n k hE hS
        · rw [hposts, List.nil_append] at hE hS; exact ih _ n k hE hS
        · rw [hposts, List.singleton_append] at hE hS
          cases k with
          | zero =>
            rw [List.take_zero] at hE
            obtain ⟨p, hp, _⟩ := hE
            simp at hp
          | succ k' =>
            rw [List.take_succ_cons] at hE
            rw [List.drop_succ_cons] at hS
            obtain ⟨p, hp, hpe⟩ := hE
            rcases List.mem_cons.mp hp with heq | hp'
            · have hn : n = info.run_number := by
                rw [heq] at hpe
                rw [isEndOf_iff] at hpe
                rw [← hpe.2, hqn]
              obtain ⟨p', hp', hps'⟩ := hS
              have hmem : p' ∈ trace (log_run s now info).state rest :=
                List.drop_subset _ _ hp'
              have := start_in_trace rest (log_run s now info).state n
                ⟨p', hmem, hps'⟩ info hcur'
              rw [hn] at this
              exact absurd this (Nat.lt_irrefl _)
            · exact ih _ n k' ⟨p, hp', hpe⟩ hS
        · rw [hposts, List.nil_append] at hE hS; exact ih _ n k hE hS
        · rw [hposts, List.singleton_append] at hE hS
          cases k with
          | zero =>
            rw [List.take_zero] at hE
            obtain ⟨p, hp, _⟩ := hE
            simp at hp
          | succ k' =>
            rw [List.take_succ_cons] at hE
            rw [List.drop_succ_cons] at hS
            obtain ⟨p, hp, hpe⟩ := hE
            rcases List.mem_cons.mp hp with heq | hp'
            · rw [heq] at hpe
              rw [isEndOf_iff, hform] at hpe
              exact absurd hpe.1 (by simp)
            · exact ih _ n k' ⟨p, hp', hpe⟩ hS
      · rw [trace_cons_err _ _ _ _ hf e herr] at hE hS
        rcases log_run_cases s now info _ rfl with
          ⟨_, _, herr', _⟩ | ⟨cur, _, _, herr', _⟩ |
          ⟨cur, _, hposts, _, _⟩ |
          ⟨cur, _, _, _, _, herr', _, _, _, _, _⟩ |
          ⟨cur, _, _, _, herr', _⟩ |
          ⟨cur, _, _, _, herr', _, _, _, _, _⟩
        · rw [herr'] at herr; exact absurd herr (by simp)
        · rw [herr'] at herr; exact absurd herr (by simp)
        · rw [hposts] at hE
          obtain ⟨p, hp, _⟩ := hE
          have := List.take_subset k ([] : List ECLPost) hp
          simp at this
        · rw [herr'] at herr; exact absurd herr (by simp)
        · rw [herr'] at herr; exact absurd herr (by simp)
        · rw [herr'] at herr; exact absurd herr (by simp)
    · have hf' : filter_run s info = false := Bool.not_eq_true _ ▸ eq_false_of_ne_true hf
      rw [trace_cons_skip _ _ _ _ hf'] at hE hS
      exact ih s n k hE hS

/-! ### Claim theorems -/

/-- C6: at-most-once delivery — for every finite sequence of snapshots
processed by one `ECLDAQRunLogger` pipeline step (`filter_run`, then
`log_run` only when `filter_run` returned true), each distinct run number
causes at most one start-of-run post and at most one end-of-run post across
the entire call history. -/
theorem ecl_at_most_once_per_run (s : ECLState) (l : List (Int × RunInfo)) (n : Nat) :
    (trace s l).countP (isStartOf n) ≤ 1 ∧ (trace s l).countP (isEndOf n) ≤ 1 :=
  ⟨start_count l s n, end_count l s n⟩

/-- C7: causal ordering — for every finite sequence of snapshots processed
by one `ECLDAQRunLogger` pipeline, if both a start-of-run post and an
end-of-run post are made for the same run number `n`, the start-of-run post
occurs strictly before the end-of-run post in emission order. -/
theorem ecl_start_precedes_end (s : ECLState) (l : List (Int × RunInfo)) (n i j : Nat)
    (hi : i < (trace s l).length) (hj : j < (trace s l).length)
    (hs : isStartOf n ((trace s l)[i]) = true)
    (he : isEndOf n ((trace s l)[j]) = true) : i < j := by
  by_contra hij
  have hji : j ≤ i := Nat.le_of_not_lt hij
  rcases Nat.eq_or_lt_of_le hji with heq | hlt
  · subst heq
    have h1 := (isStartOf_iff _ _).mp hs
    have h2 := (isEndOf_iff _ _).mp he
    have : ECLForm.runStart = ECLForm.runEnd := h1.1.symm.trans h2.1
    simp at this
  · exact no_end_before_start l s n (j + 1)
      ⟨(trace s l)[j], getElem_mem_take _ j hj, he⟩
      ⟨(trace s l)[i], getElem_mem_drop _ (j + 1) i hi (by omega), hs⟩

/-- C7 witness: on the concrete queue `demo_queue`, the trace is
`[Start(2), End(2)]`; the theorem yields `0 < 1`. -/
theorem ecl_start_precedes_end_witness : (0 : Nat) < 1 :=
  ecl_start_precedes_end fresh_logger demo_queue 2 0 1
    (by decide) (by decide) (by decide) (by decide)

/-- C1 counterexample: a fresh tracker adopts the completed run 1, then
receives the completed run 2 (`run_number` greater than the current run,
`end_time` present).  Run 2 is cached but **no** post at all is emitted —
in particular no end-of-run post, contradicting the claimed
`End(snapshot, crashed=snapshot.bad_end)` emission. -/
theorem completed_newer_run_emits_nothing :
    worker_run fresh_logger [(10, demo_run 1 1 (some 2)), (50, demo_run 2 3 (some 4))] =
      ({ min_run := 0, start_time_utc := 0, current_run := some (demo_run 2 3 (some 4)),
         run_cache := [2], last_posted_time := 50 }, []) := by
  decide

/-- C1 amended: when `log_run` receives a snapshot whose `run_number` is
greater than the current run's and whose `end_time` is already present, it
emits neither a start-of-run nor an end-of-run post for that snapshot; if
the call completes without raising, the snapshot becomes the current run
and its run number is appended to the cache. -/
theorem completed_newer_run_cached_not_posted (s : ECLState) (now : Int)
    (info cur : RunInfo) (hcur : s.current_run = some cur)
    (hlt : cur.run_number < info.run_number) (hend : info.end_time.isSome = true) :
    (log_run s now info).posts = [] ∧
    ((log_run s now info).error = none →
      (log_run s now info).state.current_run = some info ∧
      (log_run s now info).state.run_cache = dequeAppend 1000 s.run_cache info.run_number) := by
  have h1 : ¬ info.run_number < cur.run_number := by omega
  have h2 : ¬ info.run_number = cur.run_number := by omega
  cases hce : cur.end_time with
  | none => simp [log_run, log_run_body, hcur, h1, h2, hce, post_run]
  | some tc => simp [log_run, log_run_body, adopt_new_run, hcur, h1, h2, hce, hend]

/-- C1 witness: the amended claim instantiated at the already-ended current
run 1 and the completed snapshot for run 2. -/
theorem completed_newer_run_cached_not_posted_witness :
    (log_run tracking_1_ended 5 (demo_run 2 3 (some 4))).posts = [] ∧
    ((log_run tracking_1_ended 5 (demo_run 2 3 (some 4))).error = none →
      (log_run tracking_1_ended 5 (demo_run 2 3 (some 4))).state.current_run =
        some (demo_run 2 3 (some 4)) ∧
      (log_run tracking_1_ended 5 (demo_run 2 3 (some 4))).state.run_cache =
        dequeAppend 1000 tracking_1_ended.run_cache 2) :=
  completed_newer_run_cached_not_posted tracking_1_ended 5 (demo_run 2 3 (some 4))
    (demo_run 1 1 (some 2)) rfl (by decide) rfl

/-- C2 counterexample: after run 200 is the current run, ingesting the stale
run 9 emits nothing but **does** append `9` to the run cache, contradicting
the claim that the seen set is left without `9`. -/
theorem stale_run_number_lands_in_cache :
    worker_run fresh_logger [(0, demo_run 200 1 none), (0, demo_run 9 1 none)] =
      ({ min_run := 0, start_time_utc := 0, current_run := some (demo_run 200 1 none),
         run_cache := [9], last_posted_time := 0 }, []) := by
  decide

/-- C2 amended: a snapshot whose `run_number` is strictly below the current
run's is ignored for posting (nothing emitted, current run unchanged, no
exception) but its run number **is** appended to the run cache. -/
theorem stale_run_cached (s : ECLState) (now : Int) (info cur : RunInfo)
    (hcur : s.current_run = some cur) (hlt : info.run_number < cur.run_number) :
    (log_run s now info).posts = [] ∧ (log_run s now info).error = none ∧
    (log_run s now info).state.current_run = some cur ∧
    (log_run s now info).state.run_cache = dequeAppend 1000 s.run_cache info.run_number := by
  simp [log_run, log_run_body, hcur, hlt]

/-- C2 witness: the amended claim instantiated at current run 17215 and the
stale snapshot for run 9. -/
theorem stale_run_cached_witness :
    (log_run tracking_17215 3 (demo_run 9 1 none)).posts = [] ∧
    (log_run tracking_17215 3 (demo_run 9 1 none)).error = none ∧
    (log_run tracking_17215 3 (demo_run 9 1 none)).state.current_run =
      some (demo_run 17215 5 none) ∧
    (log_run tracking_17215 3 (demo_run 9 1 none)).state.run_cache =
      dequeAppend 1000 tracking_17215.run_cache 9 :=
  stale_run_cached tracking_17215 3 (demo_run 9 1 none) (demo_run 17215 5 none)
    rfl (by decide)

/-- C3: the tracker-level claim that `log_run` never raises for well-formed
input fails — at the concrete failing input (current run 100 never ended,
newer run 101 arrives) the synthesized end-of-run post formats
`current_run.end_time` (`None`) and raises `AttributeError`. -/
theorem log_run_raises_on_superseded_unended_run :
    (log_run tracking_100 7 (demo_run 101 6 none)).error =
      some ECLError.attributeError := by
  decide

/-- C4: at the concrete input from the claim (current run 17215 never
ended, run 17216 arrives), the code does **not** emit
`End(current_run, crashed=true)`: the call raises `AttributeError` while
formatting the missing end time, emits no post, caches nothing, and leaves
run 17215 current.  Moreover the `crashed` field `_post_run` would write is
`'Yes' if info.bad_end else 'No'` — for an ended copy of run 17215 with
`bad_end = false` it is `"No"`, not unconditionally true. -/
theorem superseded_unended_run_not_ended_crashed :
    (log_run tracking_17215 7 (demo_run 17216 6 none)).error =
      some ECLError.attributeError ∧
    (log_run tracking_17215 7 (demo_run 17216 6 none)).posts = [] ∧
    (log_run tracking_17215 7 (demo_run 17216 6 none)).state.run_cache = [] ∧
    (log_run tracking_17215 7 (demo_run 17216 6 none)).state.current_run =
      some (demo_run 17215 5 none) ∧
    (∃ p, post_run (demo_run 17215 5 (some 60)) true = .ok p ∧
      ("crashed", "No") ∈ p.fields ∧ ("crashed", "Yes") ∉ p.fields) := by
  refine ⟨by decide, by decide, by decide, by decide,
    end_post (demo_run 17215 5 (some 60)) 60, rfl, by decide, by decide⟩

/-- C5 counterexample: a fully completed run 50 ingested as the very first
observation on a fresh tracker is adopted silently — no end-of-run post is
emitted and `50` is **not** added to the cache, contradicting the claimed
`End(run, crashed=bad_end)` emission and cache insertion. -/
theorem first_completed_run_not_reported :
    worker_run fresh_logger [(0, demo_run 50 1 (some 2))] =
      ({ min_run := 0, start_time_utc := 0, current_run := some (demo_run 50 1 (some 2)),
         run_cache := [], last_posted_time := 0 }, []) := by
  decide

/-- C5 amended: the first observation ingested by a fresh tracker — also
when fully completed (`end_time` set) — is merely adopted as the current
run: no post of any kind is emitted, no exception is raised, and the run
cache is unchanged (the run number is not recorded as seen). -/
theorem first_observation_adopted_silently (s : ECLState) (now : Int) (info : RunInfo)
    (hcur : s.current_run = none) (_hend : info.end_time.isSome = true) :
    (log_run s now info).posts = [] ∧ (log_run s now info).error = none ∧
    (log_run s now info).state.current_run = some info ∧
    (log_run s now info).state.run_cache = s.run_cache := by
  simp [log_run, log_run_body, hcur]

/-- C5 witness: the amended claim instantiated on a fresh tracker and the
completed run 50. -/
theorem first_observation_adopted_silently_witness :
    (log_run fresh_logger 0 (demo_run 50 1 (some 2))).posts = [] ∧
    (log_run fresh_logger 0 (demo_run 50 1 (some 2))).error = none ∧
    (log_run fresh_logger 0 (demo_run 50 1 (some 2))).state.current_run =
      some (demo_run 50 1 (some 2)) ∧
    (log_run fresh_logger 0 (demo_run 50 1 (some 2))).state.run_cache =
      fresh_logger.run_cache :=
  first_observation_adopted_silently fresh_logger 0 (demo_run 50 1 (some 2)) rfl rfl

/-- C8 counterexample: the gate records the **entry** time, not the return
time.  With `_last_posted_time = 0`, a call entering at `t = 1` proceeds
(returns) at `t = 30` but records `1`; a second call entering at `t = 31`
(after the first returned) proceeds immediately at `t = 31`, which is less
than 30 seconds after the first call returned (`30 + 30 = 60`). -/
theorem rate_limit_not_thirty_after_return :
    (rate_limit 0 1).1 = 30 ∧ (rate_limit 0 1).2 = 1 ∧
    (rate_limit (rate_limit 0 1).2 31).1 = 31 ∧
    (rate_limit (rate_limit 0 1).2 31).1 < (rate_limit 0 1).1 + 30 := by
  decide

/-- C8 amended: the rate-limiting step blocks until at least 30 seconds have
elapsed since the previous invocation's **recorded entry time**, records the
current entry time, and proceeds; consequently, for any two consecutive
`log_run` invocations, the second proceeds no earlier than 30 seconds after
the first's entry time. -/
theorem rate_limit_thirty_since_entry (last t1 t2 : Int) :
    (rate_limit last t1).2 = t1 ∧
    t1 + 30 ≤ (rate_limit (rate_limit last t1).2 t2).1 := by
  refine ⟨rfl, ?_⟩
  simp only [rate_limit]
  split <;> omega

/-- C9: dev/floor filtering — a snapshot with `dev_run = true`, or with a
run number strictly below the configured floor `min_run`, is rejected by
`filter_run`, and the worker loop then skips `log_run` entirely, so the
pipeline produces no post of any kind for it. -/
theorem dev_or_floor_snapshot_never_posted (s : ECLState) (now : Int) (info : RunInfo)
    (rest : List (Int × RunInfo))
    (h : info.dev_run = true ∨ info.run_number < s.min_run) :
    filter_run s info = false ∧
    worker_run s ((now, info) :: rest) = worker_run s rest := by
  have hf : filter_run s info = false := by
    rcases h with hdev | hfloor
    · by_cases hmin : info.run_number < s.min_run
      · simp [filter_run, hmin]
      · simp [filter_run, hmin, hdev]
    · simp [filter_run, hfloor]
  exact ⟨hf, worker_run_cons_skip _ _ _ _ hf⟩

/-- C9 witness: the claim instantiated at a dev-area snapshot on a fresh
tracker. -/
theorem dev_or_floor_snapshot_never_posted_witness :
    filter_run fresh_logger dev_snapshot = false ∧
    worker_run fresh_logger [(0, dev_snapshot)] = worker_run fresh_logger [] :=
  dev_or_floor_snapshot_never_posted fresh_logger 0 dev_snapshot [] (Or.inl rfl)

/-- C10: error atomicity of the spreadsheet sink — if
`GoogleSheetsDAQRunLogger.log_run` hits a backend failure
(`TimeoutError`/`HttpError`) while reading the run/row map or while issuing
the update/append write, it returns with the sink state unchanged (no cache
entry gained, `_last_post` not advanced) and no row written; moreover the
run cache gains an entry only when the delivered snapshot's `end_time` is
set, and then exactly the delivered run number is appended. -/
theorem sheets_log_run_atomic (header : Nat) (s : SheetsState) (b : SheetsBackend)
    (now now_utc : Int) (info : RunInfo) :
    ((b.get_result = none ∨ b.write_result = none) →
      sheets_log_run header s b now now_utc info = (s, none)) ∧
    ((sheets_log_run header s b now now_utc info).1.run_cache ≠ s.run_cache →
      info.end_time.isSome = true ∧
      (sheets_log_run header s b now now_utc info).1.run_cache =
        dequeAppend 1000 s.run_cache info.run_number) := by
  cases hg : b.get_result with
  | none =>
    constructor
    · intro _
      simp [sheets_log_run, sheets_run_row_map, hg]
    · intro hne
      exact absurd (by simp [sheets_log_run, sheets_run_row_map, hg]) hne
  | some rows =>
    cases hw : b.write_result with
    | none =>
      constructor
      · intro _
        simp [sheets_log_run, sheets_run_row_map, hg, hw]
      · intro hne
        exact absurd (by simp [sheets_log_run, sheets_run_row_map, hg, hw]) hne
    | some k =>
      constructor
      · rintro (hc | hc)
        · exact Option.noConfusion hc
        · exact Option.noConfusion hc
      · intro hne
        by_cases he : info.end_time.isSome = true
        · refine ⟨he, ?_⟩
          simp [sheets_log_run, sheets_run_row_map, hg, hw, he]
        · exact absurd (by simp [sheets_log_run, sheets_run_row_map, hg, hw, he]) hne

/-- C10 witness: with a failing spreadsheet read, the sink state is exactly
unchanged and nothing is written. -/
theorem sheets_log_run_atomic_witness :
    sheets_log_run 0 { run_cache := [], last_post := 0 }
      { get_result := none, write_result := none } 3 4 (demo_run 7 1 none) =
      ({ run_cache := [], last_post := 0 }, none) :=
  (sheets_log_run_atomic 0 { run_cache := [], last_post := 0 }
    { get_result := none, write_result := none } 3 4 (demo_run 7 1 none)).1 (Or.inl rfl)
